import Mathlib

set_option linter.unusedVariables false

/-!
Shallow embedding of `src/arduino_code/ArduinoProject/servo.cpp`
(metasepia_brain repository): the servo module driving two banks of
fin servos (port / starboard) of an underwater robot.

C `float` values are modelled as rationals (`ℚ`).  The headers
`robot.h`, `servo.h` and `waveform.h` are not part of the repository
snapshot, so the configuration constants they declare
(`MAX_ANGLE_DELTA`, `MAX_TIME_INC`, `SERVOMIN`, `SERVOMAX`,
`NEUTRALS_PORT`, `NEUTRALS_STARBOARD`) are kept as parameters of the
model (a `Config` record), and the four waveform generator functions
are kept abstract (a `Waveforms` record of functions).  `NUM_SERVOS`
is 5, fixed by the declarations `float last_port_angle[5]` and
`float last_starboard_angle[5]` in servo.cpp.
-/

namespace servo

/-- Modelled from the spec: configuration constants declared in the missing
headers `robot.h` / `servo.h`.  The spec describes them as fixed, read-only
configuration data (slew-rate limit, phase-increment bound, pulse-width
range, per-actuator per-side neutral offsets in degrees). -/
structure Config where
  MAX_ANGLE_DELTA : ℚ
  MAX_TIME_INC : ℚ
  SERVOMIN : ℚ
  SERVOMAX : ℚ
  NEUTRALS_PORT : List ℚ
  NEUTRALS_STARBOARD : List ℚ
deriving DecidableEq

/-- Modelled from the spec: the `Side` enumeration {Both, Port, Starboard}
(`B`, `P`, `S` constants of the missing `robot.h`). -/
inductive Side where
  | B : Side
  | P : Side
  | S : Side
deriving DecidableEq

/-- Modelled from the spec: the waveform-kind constant `SINWAVE` of the
missing header; only distinctness of the four constants matters. -/
def SINWAVE : Int := 0

/-- Modelled from the spec: the waveform-kind constant `FLATWAVE`. -/
def FLATWAVE : Int := 1

/-- Modelled from the spec: the waveform-kind constant `STANDINGWAVE`. -/
def STANDINGWAVE : Int := 2

/-- Modelled from the spec: the waveform-kind constant `SINANDFLAT`. -/
def SINANDFLAT : Int := 3

/-- Number of servos per side: 5, fixed by `float last_port_angle[5]`
in servo.cpp. -/
def NUM_SERVOS : Nat := 5

/-- Modelled from the spec: the four pure waveform generator functions of
the missing `waveform.cpp` (`calc_angle_sinwave`, `calc_angle_flatwave`,
`calc_angle_standingwave`, `calc_angle_sinandflat`), kept abstract; the
spec fixes their signatures (amplitude, wavelength, phase/time, and —
except for the flat wave — the actuator index) but calls the exact
mathematical form an implementation choice. -/
structure Waveforms where
  calc_angle_sinwave : ℚ → ℚ → ℚ → Nat → ℚ
  calc_angle_flatwave : ℚ → ℚ → ℚ → ℚ
  calc_angle_standingwave : ℚ → ℚ → ℚ → Nat → ℚ
  calc_angle_sinandflat : ℚ → ℚ → ℚ → Nat → ℚ

/-- The mutable state of the servo module: the two per-actuator
last-commanded-angle history arrays (`last_port_angle`,
`last_starboard_angle` in servo.cpp) together with a log of the
`pwm.setPWM(channel, 0, pulse)` calls issued to the external PWM driver,
recorded as (channel, pulse) pairs in issue order. -/
structure ServoState where
  last_port_angle : List ℚ
  last_starboard_angle : List ℚ
  writes : List (Nat × ℚ)
deriving DecidableEq

/-- The `time_milli_t` record returned by `drive_fins`: the two per-side
phase accumulators. -/
structure time_milli_t where
  port : ℚ
  starboard : ℚ
deriving DecidableEq

/-- Modelled from the spec: the Arduino `map` routine used at
servo.cpp:95/109, an external collaborator; the spec describes the pulse
mapping as linear interpolation from [-90, 90] to the driver pulse range,
direction preserved. -/
def map (x in_min in_max out_min out_max : ℚ) : ℚ :=
  (x - in_min) * (out_max - out_min) / (in_max - in_min) + out_min

/-- servo.cpp:200-207, `servo::clamp`. -/
def clamp (cfg : Config) (time_inc : ℚ) : ℚ :=
  if time_inc > cfg.MAX_TIME_INC then cfg.MAX_TIME_INC
  else if time_inc < -cfg.MAX_TIME_INC then -cfg.MAX_TIME_INC
  else time_inc

/-- The slew-rate limiting if/else chain of servo.cpp:90-94 (port) and
servo.cpp:104-108 (starboard): clamp `angle` into
[`last` - `delta`, `last` + `delta`]. -/
def rate_limit (delta last angle : ℚ) : ℚ :=
  if angle > last + delta then last + delta
  else if angle < last - delta then last - delta
  else angle

/-- The `switch (wavetype)` dispatch of servo.cpp:63-83; in the `default`
case nothing is assigned, so `angle` keeps its current value. -/
def dispatch_angle (wf : Waveforms) (amplitude wavelength time_milli : ℚ)
    (wavetype : Int) (servonum : Nat) (angle : ℚ) : ℚ :=
  if wavetype = SINWAVE then wf.calc_angle_sinwave amplitude wavelength time_milli servonum
  else if wavetype = FLATWAVE then wf.calc_angle_flatwave amplitude wavelength time_milli
  else if wavetype = STANDINGWAVE then wf.calc_angle_standingwave amplitude wavelength time_milli servonum
  else if wavetype = SINANDFLAT then wf.calc_angle_sinandflat amplitude wavelength time_milli servonum
  else angle

/-- The port-side block of servo.cpp:86-98: add the port neutral offset,
slew-limit against the port history, write the mapped pulse to channel
`servonum`, store the new angle in the port history.  Returns the (mutated)
`angle` variable together with the new state. -/
def port_step (cfg : Config) (servonum : Nat) (angle : ℚ) (s : ServoState) :
    ℚ × ServoState :=
  let angle1 := angle + cfg.NEUTRALS_PORT.getD servonum 0
  let angle2 := rate_limit cfg.MAX_ANGLE_DELTA (s.last_port_angle.getD servonum 0) angle1
  let pulse_port := map angle2 (-90) 90 cfg.SERVOMIN cfg.SERVOMAX
  (angle2,
   { s with last_port_angle := s.last_port_angle.set servonum angle2,
            writes := s.writes ++ [(servonum, pulse_port)] })

/-- The starboard-side block of servo.cpp:100-112: add the starboard
neutral offset, slew-limit against the starboard history, write the pulse
for the sign-inverted angle to channel `servonum + NUM_SERVOS`, store the
un-inverted angle in the starboard history. -/
def starboard_step (cfg : Config) (servonum : Nat) (angle : ℚ) (s : ServoState) :
    ℚ × ServoState :=
  let angle1 := angle + cfg.NEUTRALS_STARBOARD.getD servonum 0
  let angle2 := rate_limit cfg.MAX_ANGLE_DELTA (s.last_starboard_angle.getD servonum 0) angle1
  let pulse_starboard := map (-angle2) (-90) 90 cfg.SERVOMIN cfg.SERVOMAX
  (angle2,
   { s with last_starboard_angle := s.last_starboard_angle.set servonum angle2,
            writes := s.writes ++ [(servonum + NUM_SERVOS, pulse_starboard)] })

/-- One iteration of the `for (servonum = 0; ...)` loop of
servo.cpp:61-113, threading the local `angle` variable (which the C code
never reinitialises between iterations) through the waveform dispatch and
the two conditional side blocks. -/
def servo_iter (cfg : Config) (wf : Waveforms)
    (amplitude wavelength time_milli : ℚ) (wavetype : Int) (side : Side)
    (st : ℚ × ServoState) (servonum : Nat) : ℚ × ServoState :=
  let angle := dispatch_angle wf amplitude wavelength time_milli wavetype servonum st.1
  let st1 := if side = Side.B ∨ side = Side.P
             then port_step cfg servonum angle st.2 else (angle, st.2)
  if side = Side.B ∨ side = Side.S
  then starboard_step cfg servonum st1.1 st1.2 else st1

/-- servo.cpp:50-114, `servo::set_positions`.  `angle0` is the
indeterminate initial value of the uninitialised local `float angle;`
(servo.cpp:52): the C code never assigns it before first use when
`wavetype` matches no `case`. -/
def set_positions (cfg : Config) (wf : Waveforms) (angle0 : ℚ)
    (amplitude wavelength time_milli : ℚ) (wavetype : Int) (side : Side)
    (s : ServoState) : ServoState :=
  ((List.range NUM_SERVOS).foldl
    (servo_iter cfg wf amplitude wavelength time_milli wavetype side)
    (angle0, s)).2

/-- The local variables of `servo::drive_fins` (servo.cpp:117-184) just
before the two `set_positions` calls: the two per-side amplitudes, the
updated phase accumulators, and the selected waveform kind. -/
structure DriveFinsLocals where
  amp_P : ℚ
  amp_S : ℚ
  time : time_milli_t
  waveform : Int
deriving DecidableEq

/-- servo.cpp:117-184: the motion-blending front half of
`servo::drive_fins`, computing `amp_P`, `amp_S`, the updated `time`
record and the `waveform` selector exactly as the source does.  `pitch`
is accepted and ignored, as in the source. -/
def drive_fins_locals (cfg : Config) (surge sway pitch yaw amp : ℚ)
    (time : time_milli_t) : DriveFinsLocals :=
  let amp_P := amp
  let amp_S := amp
  if |surge| ≤ 0.05 ∧ |yaw| ≤ 0.05 then
    -- pure-sway branch, servo.cpp:125-144
    let time1 :=
      if sway > 0 then
        let time_inc_P := clamp cfg (sway * cfg.MAX_TIME_INC)
        { port := time.port + time_inc_P, starboard := 0 : time_milli_t }
      else if sway < 0 then
        let time_inc_S := clamp cfg (sway * cfg.MAX_TIME_INC)
        { port := 0, starboard := time.starboard + time_inc_S : time_milli_t }
      else time
    ⟨amp_P, amp_S, time1, FLATWAVE⟩
  else
    -- combined branch, servo.cpp:147-183
    let time_inc_P := surge * cfg.MAX_TIME_INC
    let time_inc_S := surge * cfg.MAX_TIME_INC
    let incs : ℚ × ℚ :=
      if yaw > 0 then (time_inc_P + yaw * cfg.MAX_TIME_INC, time_inc_S - yaw * cfg.MAX_TIME_INC)
      else if yaw < 0 then (time_inc_P - yaw * cfg.MAX_TIME_INC, time_inc_S + yaw * cfg.MAX_TIME_INC)
      else (time_inc_P, time_inc_S)
    let amps : ℚ × ℚ :=
      if sway > 0 then (amp_P, amp * (1 - sway))
      else if sway < 0 then (amp * (1 - sway), amp_S)
      else (amp_P, amp_S)
    -- the `if (abs(sway) > 0.05)` block at servo.cpp:170-172 is empty
    let inc_P := clamp cfg incs.1
    let inc_S := clamp cfg incs.2
    ⟨amps.1, amps.2,
     { port := time.port + inc_P, starboard := time.starboard + inc_S }, SINWAVE⟩

/-- servo.cpp:117-192, `servo::drive_fins`: blend the motion command into
the locals, then issue the two `set_positions` calls of
servo.cpp:187-188 — `(amp_S, 480, time.port, waveform, P)` followed by
`(amp_P, 480, time.starboard, waveform, S)` — and return the updated
time record. -/
def drive_fins (cfg : Config) (wf : Waveforms) (angle0 : ℚ)
    (surge sway pitch yaw amp : ℚ) (time : time_milli_t) (s : ServoState) :
    time_milli_t × ServoState :=
  let L := drive_fins_locals cfg surge sway pitch yaw amp time
  let s1 := set_positions cfg wf angle0 L.amp_S 480 L.time.port L.waveform Side.P s
  let s2 := set_positions cfg wf angle0 L.amp_P 480 L.time.starboard L.waveform Side.S s1
  (L.time, s2)

/-! Helper lemmas. -/

lemma getD_set_ne (l : List ℚ) (i j : Nat) (v : ℚ) (h : j ≠ i) :
    (l.set j v).getD i 0 = l.getD i 0 := by
  simp [List.getD_eq_getElem?_getD, List.getElem?_set_ne h]

lemma getD_set_self (l : List ℚ) (i : Nat) (v : ℚ) (h : i < l.length) :
    (l.set i v).getD i 0 = v := by
  simp [List.getD_eq_getElem?_getD, List.getElem?_set_self, h]

lemma rate_limit_abs_le (delta last angle : ℚ) (h : 0 ≤ delta) :
    |rate_limit delta last angle - last| ≤ delta := by
  unfold rate_limit
  split_ifs with h1 h2 <;> rw [abs_le] <;> constructor <;> linarith

lemma drive_fins_locals_waveform (cfg : Config) (surge sway pitch yaw amp : ℚ)
    (time : time_milli_t) :
    (drive_fins_locals cfg surge sway pitch yaw amp time).waveform =
      if |surge| ≤ 0.05 ∧ |yaw| ≤ 0.05 then FLATWAVE else SINWAVE := by
  unfold drive_fins_locals
  by_cases h : |surge| ≤ 0.05 ∧ |yaw| ≤ 0.05 <;> simp [h]

lemma drive_fins_locals_amp_S (cfg : Config) (surge sway pitch yaw amp : ℚ)
    (time : time_milli_t) :
    (drive_fins_locals cfg surge sway pitch yaw amp time).amp_S =
      if ¬(|surge| ≤ 0.05 ∧ |yaw| ≤ 0.05) ∧ sway > 0 then amp * (1 - sway) else amp := by
  unfold drive_fins_locals
  by_cases h : |surge| ≤ 0.05 ∧ |yaw| ≤ 0.05
  · simp [h]
  · by_cases h2 : sway > 0
    · simp [h, h2]
    · by_cases h3 : sway < 0 <;> simp [h, h2, h3]

lemma drive_fins_locals_amp_P (cfg : Config) (surge sway pitch yaw amp : ℚ)
    (time : time_milli_t) :
    (drive_fins_locals cfg surge sway pitch yaw amp time).amp_P =
      if ¬(|surge| ≤ 0.05 ∧ |yaw| ≤ 0.05) ∧ sway < 0 then amp * (1 - sway) else amp := by
  unfold drive_fins_locals
  by_cases h : |surge| ≤ 0.05 ∧ |yaw| ≤ 0.05
  · simp [h]
  · by_cases h2 : sway > 0
    · have h3 : ¬ sway < 0 := by linarith
      simp [h, h2, h3]
    · by_cases h3 : sway < 0 <;> simp [h, h2, h3]

/-- A sample configuration used to instantiate the universally quantified
constants in witnesses. -/
def cfg0 : Config := ⟨5, 2, 150, 600, [10, 10, 10, 10, 10], [10, 10, 10, 10, 10]⟩

/-- A sample configuration with a large slew-rate limit (so that the
rate limiter is inactive on the sample inputs). -/
def cfg1 : Config := ⟨100, 2, 150, 600, [10, 10, 10, 10, 10], [10, 10, 10, 10, 10]⟩

/-- Sample waveform generator functions: identically zero. -/
def wf0 : Waveforms := ⟨fun _ _ _ _ => 0, fun _ _ _ => 0, fun _ _ _ _ => 0, fun _ _ _ _ => 0⟩

/-- A sample initial servo state: all history angles zero, empty write log. -/
def s0 : ServoState := ⟨[0, 0, 0, 0, 0], [0, 0, 0, 0, 0], []⟩

/-! Claim theorems. -/

/-- C8: `clamp` is a pure total function whose result always lies in
[-MAX_TIME_INC, +MAX_TIME_INC], leaves inputs already in that interval
unchanged, and is idempotent (given the nonnegativity of the
`MAX_TIME_INC` bound, without which the interval is empty). -/
theorem clamp_range_id_idem (cfg : Config) (x : ℚ) (hM : 0 ≤ cfg.MAX_TIME_INC) :
    (-cfg.MAX_TIME_INC ≤ clamp cfg x ∧ clamp cfg x ≤ cfg.MAX_TIME_INC) ∧
    (-cfg.MAX_TIME_INC ≤ x → x ≤ cfg.MAX_TIME_INC → clamp cfg x = x) ∧
    clamp cfg (clamp cfg x) = clamp cfg x := by
  unfold clamp
  refine ⟨⟨?_, ?_⟩, ?_, ?_⟩ <;> [skip; skip; intro h1 h2; skip] <;>
    split_ifs <;> first | rfl | linarith

/-- Witness for C8 at the sample configuration and input 7. -/
theorem clamp_range_id_idem_witness :
    (-cfg0.MAX_TIME_INC ≤ clamp cfg0 7 ∧ clamp cfg0 7 ≤ cfg0.MAX_TIME_INC) ∧
    (-cfg0.MAX_TIME_INC ≤ 7 → (7 : ℚ) ≤ cfg0.MAX_TIME_INC → clamp cfg0 7 = 7) ∧
    clamp cfg0 (clamp cfg0 7) = clamp cfg0 7 :=
  clamp_range_id_idem cfg0 7 (by norm_num [cfg0])

/-- C1: every call to `drive_fins` reaches the two final `set_positions`
calls; the first passes `amp_S` (the amplitude attenuated when sway points
to starboard) with side Port and the updated `time.port`, and the second
passes `amp_P` (the amplitude attenuated when sway points to port) with
side Starboard and the updated `time.starboard` — each side is driven
with the opposite side's amplitude. -/
theorem drive_fins_cross_assignment (cfg : Config) (wf : Waveforms)
    (angle0 surge sway pitch yaw amp : ℚ) (time : time_milli_t) (s : ServoState) :
    (drive_fins cfg wf angle0 surge sway pitch yaw amp time s).2 =
      set_positions cfg wf angle0
        (if ¬(|surge| ≤ 0.05 ∧ |yaw| ≤ 0.05) ∧ sway < 0 then amp * (1 - sway) else amp)
        480 (drive_fins cfg wf angle0 surge sway pitch yaw amp time s).1.starboard
        (if |surge| ≤ 0.05 ∧ |yaw| ≤ 0.05 then FLATWAVE else SINWAVE) Side.S
        (set_positions cfg wf angle0
          (if ¬(|surge| ≤ 0.05 ∧ |yaw| ≤ 0.05) ∧ sway > 0 then amp * (1 - sway) else amp)
          480 (drive_fins cfg wf angle0 surge sway pitch yaw amp time s).1.port
          (if |surge| ≤ 0.05 ∧ |yaw| ≤ 0.05 then FLATWAVE else SINWAVE) Side.P s) := by
  show (drive_fins cfg wf angle0 surge sway pitch yaw amp time s).2 =
    set_positions cfg wf angle0 _ 480
      (drive_fins_locals cfg surge sway pitch yaw amp time).time.starboard _ Side.S
      (set_positions cfg wf angle0 _ 480
        (drive_fins_locals cfg surge sway pitch yaw amp time).time.port _ Side.P s)
  rw [← drive_fins_locals_amp_P cfg surge sway pitch yaw amp time,
      ← drive_fins_locals_amp_S cfg surge sway pitch yaw amp time,
      ← drive_fins_locals_waveform cfg surge sway pitch yaw amp time]
  rfl

/-- C5: in the combined branch with nonzero sway, exactly one side's
amplitude — the side opposite the sway direction — is attenuated by the
factor (1 - sway), while the other side keeps the unmodified amplitude. -/
theorem combined_amp_attenuation (cfg : Config) (surge sway pitch yaw amp : ℚ)
    (time : time_milli_t) (h : ¬(|surge| ≤ 0.05 ∧ |yaw| ≤ 0.05)) :
    (sway > 0 →
      (drive_fins_locals cfg surge sway pitch yaw amp time).amp_S = amp * (1 - sway) ∧
      (drive_fins_locals cfg surge sway pitch yaw amp time).amp_P = amp) ∧
    (sway < 0 →
      (drive_fins_locals cfg surge sway pitch yaw amp time).amp_P = amp * (1 - sway) ∧
      (drive_fins_locals cfg surge sway pitch yaw amp time).amp_S = amp) := by
  constructor
  · intro hsw
    have h2 : ¬ sway < 0 := by linarith
    rw [drive_fins_locals_amp_S, drive_fins_locals_amp_P]
    simp [h, hsw, h2]
  · intro hsw
    have h2 : ¬ sway > 0 := by linarith
    rw [drive_fins_locals_amp_S, drive_fins_locals_amp_P]
    simp [h, hsw, h2]

/-- Witness for C5 at surge = 1, sway = 1/2, yaw = 0, amp = 8. -/
theorem combined_amp_attenuation_witness :
    ((1 : ℚ) / 2 > 0 →
      (drive_fins_locals cfg0 1 (1/2) 0 0 8 ⟨0, 0⟩).amp_S = 8 * (1 - 1/2) ∧
      (drive_fins_locals cfg0 1 (1/2) 0 0 8 ⟨0, 0⟩).amp_P = 8) ∧
    ((1 : ℚ) / 2 < 0 →
      (drive_fins_locals cfg0 1 (1/2) 0 0 8 ⟨0, 0⟩).amp_P = 8 * (1 - 1/2) ∧
      (drive_fins_locals cfg0 1 (1/2) 0 0 8 ⟨0, 0⟩).amp_S = 8) :=
  combined_amp_attenuation cfg0 1 (1/2) 0 0 8 ⟨0, 0⟩ (by norm_num)

lemma drive_fins_fst (cfg : Config) (wf : Waveforms)
    (angle0 surge sway pitch yaw amp : ℚ) (time : time_milli_t) (s : ServoState) :
    (drive_fins cfg wf angle0 surge sway pitch yaw amp time s).1 =
      (drive_fins_locals cfg surge sway pitch yaw amp time).time := rfl

lemma drive_fins_locals_time_pure_sway (cfg : Config) (surge sway pitch yaw amp : ℚ)
    (time : time_milli_t) (h : |surge| ≤ 0.05 ∧ |yaw| ≤ 0.05) :
    (drive_fins_locals cfg surge sway pitch yaw amp time).time =
      if sway > 0 then ⟨time.port + clamp cfg (sway * cfg.MAX_TIME_INC), 0⟩
      else if sway < 0 then ⟨0, time.starboard + clamp cfg (sway * cfg.MAX_TIME_INC)⟩
      else time := by
  unfold drive_fins_locals
  rw [if_pos h]

lemma drive_fins_locals_time_combined (cfg : Config) (surge sway pitch yaw amp : ℚ)
    (time : time_milli_t) (h : ¬(|surge| ≤ 0.05 ∧ |yaw| ≤ 0.05)) :
    (drive_fins_locals cfg surge sway pitch yaw amp time).time =
      if yaw > 0 then
        ⟨time.port + clamp cfg (surge * cfg.MAX_TIME_INC + yaw * cfg.MAX_TIME_INC),
         time.starboard + clamp cfg (surge * cfg.MAX_TIME_INC - yaw * cfg.MAX_TIME_INC)⟩
      else if yaw < 0 then
        ⟨time.port + clamp cfg (surge * cfg.MAX_TIME_INC - yaw * cfg.MAX_TIME_INC),
         time.starboard + clamp cfg (surge * cfg.MAX_TIME_INC + yaw * cfg.MAX_TIME_INC)⟩
      else
        ⟨time.port + clamp cfg (surge * cfg.MAX_TIME_INC),
         time.starboard + clamp cfg (surge * cfg.MAX_TIME_INC)⟩ := by
  unfold drive_fins_locals
  rw [if_neg h]
  by_cases h2 : yaw > 0
  · simp [h2]
  · by_cases h3 : yaw < 0 <;> simp [h2, h3]

/-- C3: in pure-sway mode (|surge| ≤ 0.05, |yaw| ≤ 0.05, sway ≠ 0),
`drive_fins` advances only the accumulator of the side the sway points
toward by `clamp(sway * MAX_TIME_INC)`, force-resets the other side's
accumulator to 0, and selects the Flat waveform kind; in particular at
surge = 0, sway = 1/2, yaw = 0, zero initial phases, the returned
starboard phase is 0 and the returned port phase is strictly positive. -/
theorem pure_sway_mode (cfg : Config) (wf : Waveforms)
    (angle0 surge sway pitch yaw amp : ℚ) (time : time_milli_t) (s : ServoState)
    (hs : |surge| ≤ 0.05) (hy : |yaw| ≤ 0.05) (hM : 0 < cfg.MAX_TIME_INC) :
    (sway > 0 →
      (drive_fins cfg wf angle0 surge sway pitch yaw amp time s).1 =
        ⟨time.port + clamp cfg (sway * cfg.MAX_TIME_INC), 0⟩) ∧
    (sway < 0 →
      (drive_fins cfg wf angle0 surge sway pitch yaw amp time s).1 =
        ⟨0, time.starboard + clamp cfg (sway * cfg.MAX_TIME_INC)⟩) ∧
    (drive_fins_locals cfg surge sway pitch yaw amp time).waveform = FLATWAVE ∧
    ((drive_fins cfg wf angle0 0 (1/2) 0 0 amp ⟨0, 0⟩ s).1.starboard = 0 ∧
     0 < (drive_fins cfg wf angle0 0 (1/2) 0 0 amp ⟨0, 0⟩ s).1.port) := by
  have key := drive_fins_locals_time_pure_sway cfg surge sway pitch yaw amp time ⟨hs, hy⟩
  have inst := drive_fins_locals_time_pure_sway cfg 0 (1/2) 0 0 amp ⟨0, 0⟩
    (by norm_num)
  refine ⟨?_, ?_, ?_, ?_, ?_⟩
  · intro h2
    rw [drive_fins_fst, key, if_pos h2]
  · intro h3
    have h2 : ¬ sway > 0 := by linarith
    rw [drive_fins_fst, key, if_neg h2, if_pos h3]
  · rw [drive_fins_locals_waveform, if_pos ⟨hs, hy⟩]
  · rw [drive_fins_fst, inst, if_pos (by norm_num : (1:ℚ)/2 > 0)]
  · rw [drive_fins_fst, inst, if_pos (by norm_num : (1:ℚ)/2 > 0)]
    show 0 < (0 : ℚ) + clamp cfg (1/2 * cfg.MAX_TIME_INC)
    unfold clamp
    split_ifs <;> linarith

/-- Witness for C3 at the sample configuration, surge = 0, sway = 1/2,
yaw = 0, amp = 8, initial phases (3, 4). -/
theorem pure_sway_mode_witness :
    ((1 : ℚ)/2 > 0 →
      (drive_fins cfg0 wf0 0 0 (1/2) 0 0 8 ⟨3, 4⟩ s0).1 =
        ⟨(3 : ℚ) + clamp cfg0 (1/2 * cfg0.MAX_TIME_INC), 0⟩) ∧
    ((1 : ℚ)/2 < 0 →
      (drive_fins cfg0 wf0 0 0 (1/2) 0 0 8 ⟨3, 4⟩ s0).1 =
        ⟨0, (4 : ℚ) + clamp cfg0 (1/2 * cfg0.MAX_TIME_INC)⟩) ∧
    (drive_fins_locals cfg0 0 (1/2) 0 0 8 ⟨3, 4⟩).waveform = FLATWAVE ∧
    ((drive_fins cfg0 wf0 0 0 (1/2) 0 0 8 ⟨0, 0⟩ s0).1.starboard = 0 ∧
     0 < (drive_fins cfg0 wf0 0 0 (1/2) 0 0 8 ⟨0, 0⟩ s0).1.port) :=
  pure_sway_mode cfg0 wf0 0 0 (1/2) 0 0 8 ⟨3, 4⟩ s0 (by norm_num) (by norm_num)
    (by norm_num [cfg0])

/-- C9: deadband edge case — with |surge| ≤ 0.05, |yaw| ≤ 0.05 and sway
exactly 0, `drive_fins` leaves both phase accumulators at their input
values (neither advanced, neither reset) and still drives both sides with
the Flat waveform kind. -/
theorem deadband_zero_sway (cfg : Config) (wf : Waveforms)
    (angle0 surge sway pitch yaw amp : ℚ) (time : time_milli_t) (s : ServoState)
    (hs : |surge| ≤ 0.05) (hy : |yaw| ≤ 0.05) (hsw : sway = 0) :
    (drive_fins cfg wf angle0 surge sway pitch yaw amp time s).1 = time ∧
    (drive_fins_locals cfg surge sway pitch yaw amp time).waveform = FLATWAVE ∧
    (drive_fins cfg wf angle0 surge sway pitch yaw amp time s).2 =
      set_positions cfg wf angle0 amp 480 time.starboard FLATWAVE Side.S
        (set_positions cfg wf angle0 amp 480 time.port FLATWAVE Side.P s) := by
  subst hsw
  have key := drive_fins_locals_time_pure_sway cfg surge 0 pitch yaw amp time ⟨hs, hy⟩
  simp only [gt_iff_lt, lt_self_iff_false, if_false] at key
  have hw := drive_fins_locals_waveform cfg surge 0 pitch yaw amp time
  rw [if_pos ⟨hs, hy⟩] at hw
  have hS := drive_fins_locals_amp_S cfg surge 0 pitch yaw amp time
  have hP := drive_fins_locals_amp_P cfg surge 0 pitch yaw amp time
  simp only [lt_self_iff_false, and_false, if_false] at hS hP
  refine ⟨by rw [drive_fins_fst, key], hw, ?_⟩
  show set_positions cfg wf angle0 (drive_fins_locals cfg surge 0 pitch yaw amp time).amp_P 480
      (drive_fins_locals cfg surge 0 pitch yaw amp time).time.starboard
      (drive_fins_locals cfg surge 0 pitch yaw amp time).waveform Side.S
      (set_positions cfg wf angle0 (drive_fins_locals cfg surge 0 pitch yaw amp time).amp_S 480
        (drive_fins_locals cfg surge 0 pitch yaw amp time).time.port
        (drive_fins_locals cfg surge 0 pitch yaw amp time).waveform Side.P s) = _
  rw [key, hw, hS, hP]

/-- Witness for C9 at the sample configuration with surge = 1/100,
yaw = -1/25, sway = 0, initial phases (3, 4). -/
theorem deadband_zero_sway_witness :
    (drive_fins cfg0 wf0 0 (1/100) 0 0 (-1/25) 8 ⟨3, 4⟩ s0).1 = ⟨3, 4⟩ ∧
    (drive_fins_locals cfg0 (1/100) 0 0 (-1/25) 8 ⟨3, 4⟩).waveform = FLATWAVE ∧
    (drive_fins cfg0 wf0 0 (1/100) 0 0 (-1/25) 8 ⟨3, 4⟩ s0).2 =
      set_positions cfg0 wf0 0 8 480 (4 : ℚ) FLATWAVE Side.S
        (set_positions cfg0 wf0 0 8 480 (3 : ℚ) FLATWAVE Side.P s0) :=
  deadband_zero_sway cfg0 wf0 0 (1/100) 0 0 (-1/25) 8 ⟨3, 4⟩ s0
    (by rw [abs_le]; norm_num) (by rw [abs_le]; norm_num) rfl

/-- C4: in combined mode (|surge| > 0.05 or |yaw| > 0.05), both phase
accumulators advance by increments that start equal at
surge * MAX_TIME_INC and are adjusted by the signed term
yaw * MAX_TIME_INC — added to the port increment and subtracted from the
starboard one for positive yaw, or vice versa for negative yaw — with
each increment independently clamped before being added. -/
theorem combined_yaw_blending (cfg : Config) (wf : Waveforms)
    (angle0 surge sway pitch yaw amp : ℚ) (time : time_milli_t) (s : ServoState)
    (h : ¬(|surge| ≤ 0.05 ∧ |yaw| ≤ 0.05)) :
    (yaw > 0 →
      (drive_fins cfg wf angle0 surge sway pitch yaw amp time s).1 =
        ⟨time.port + clamp cfg (surge * cfg.MAX_TIME_INC + yaw * cfg.MAX_TIME_INC),
         time.starboard + clamp cfg (surge * cfg.MAX_TIME_INC - yaw * cfg.MAX_TIME_INC)⟩) ∧
    (yaw < 0 →
      (drive_fins cfg wf angle0 surge sway pitch yaw amp time s).1 =
        ⟨time.port + clamp cfg (surge * cfg.MAX_TIME_INC - yaw * cfg.MAX_TIME_INC),
         time.starboard + clamp cfg (surge * cfg.MAX_TIME_INC + yaw * cfg.MAX_TIME_INC)⟩) ∧
    (yaw = 0 →
      (drive_fins cfg wf angle0 surge sway pitch yaw amp time s).1 =
        ⟨time.port + clamp cfg (surge * cfg.MAX_TIME_INC),
         time.starboard + clamp cfg (surge * cfg.MAX_TIME_INC)⟩) := by
  have key := drive_fins_locals_time_combined cfg surge sway pitch yaw amp time h
  refine ⟨?_, ?_, ?_⟩
  · intro h2
    rw [drive_fins_fst, key, if_pos h2]
  · intro h3
    have h2 : ¬ yaw > 0 := by linarith
    rw [drive_fins_fst, key, if_neg h2, if_pos h3]
  · intro h0
    have h2 : ¬ yaw > 0 := by rw [h0]; exact lt_irrefl 0
    have h3 : ¬ yaw < 0 := by rw [h0]; exact lt_irrefl 0
    rw [drive_fins_fst, key, if_neg h2, if_neg h3]

/-- Witness for C4 at the sample configuration with surge = 1,
yaw = 1/4, sway = 0, initial phases (3, 4). -/
theorem combined_yaw_blending_witness :
    ((1 : ℚ)/4 > 0 →
      (drive_fins cfg0 wf0 0 1 0 0 (1/4) 8 ⟨3, 4⟩ s0).1 =
        ⟨(3 : ℚ) + clamp cfg0 (1 * cfg0.MAX_TIME_INC + 1/4 * cfg0.MAX_TIME_INC),
         (4 : ℚ) + clamp cfg0 (1 * cfg0.MAX_TIME_INC - 1/4 * cfg0.MAX_TIME_INC)⟩) ∧
    ((1 : ℚ)/4 < 0 →
      (drive_fins cfg0 wf0 0 1 0 0 (1/4) 8 ⟨3, 4⟩ s0).1 =
        ⟨(3 : ℚ) + clamp cfg0 (1 * cfg0.MAX_TIME_INC - 1/4 * cfg0.MAX_TIME_INC),
         (4 : ℚ) + clamp cfg0 (1 * cfg0.MAX_TIME_INC + 1/4 * cfg0.MAX_TIME_INC)⟩) ∧
    ((1 : ℚ)/4 = 0 →
      (drive_fins cfg0 wf0 0 1 0 0 (1/4) 8 ⟨3, 4⟩ s0).1 =
        ⟨(3 : ℚ) + clamp cfg0 (1 * cfg0.MAX_TIME_INC),
         (4 : ℚ) + clamp cfg0 (1 * cfg0.MAX_TIME_INC)⟩) :=
  combined_yaw_blending cfg0 wf0 0 1 0 0 (1/4) 8 ⟨3, 4⟩ s0
    (by rw [not_and_or]; left; rw [abs_le]; norm_num)

/-! Shape lemmas for the loop body of `set_positions`. -/

lemma servo_iter_P_eq (cfg : Config) (wf : Waveforms) (a wl tm : ℚ) (wt : Int)
    (st : ℚ × ServoState) (n : Nat) :
    servo_iter cfg wf a wl tm wt Side.P st n =
      port_step cfg n (dispatch_angle wf a wl tm wt n st.1) st.2 := by
  unfold servo_iter
  simp

lemma servo_iter_S_eq (cfg : Config) (wf : Waveforms) (a wl tm : ℚ) (wt : Int)
    (st : ℚ × ServoState) (n : Nat) :
    servo_iter cfg wf a wl tm wt Side.S st n =
      starboard_step cfg n (dispatch_angle wf a wl tm wt n st.1) st.2 := by
  unfold servo_iter
  simp

lemma servo_iter_B_eq (cfg : Config) (wf : Waveforms) (a wl tm : ℚ) (wt : Int)
    (st : ℚ × ServoState) (n : Nat) :
    servo_iter cfg wf a wl tm wt Side.B st n =
      starboard_step cfg n
        (port_step cfg n (dispatch_angle wf a wl tm wt n st.1) st.2).1
        (port_step cfg n (dispatch_angle wf a wl tm wt n st.1) st.2).2 := by
  unfold servo_iter
  simp

lemma port_step_port (cfg : Config) (n : Nat) (angle : ℚ) (s : ServoState) :
    (port_step cfg n angle s).2.last_port_angle =
      s.last_port_angle.set n
        (rate_limit cfg.MAX_ANGLE_DELTA (s.last_port_angle.getD n 0)
          (angle + cfg.NEUTRALS_PORT.getD n 0)) := rfl

lemma port_step_star (cfg : Config) (n : Nat) (angle : ℚ) (s : ServoState) :
    (port_step cfg n angle s).2.last_starboard_angle = s.last_starboard_angle := rfl

lemma port_step_writes (cfg : Config) (n : Nat) (angle : ℚ) (s : ServoState) :
    (port_step cfg n angle s).2.writes =
      s.writes ++ [(n, map (rate_limit cfg.MAX_ANGLE_DELTA (s.last_port_angle.getD n 0)
        (angle + cfg.NEUTRALS_PORT.getD n 0)) (-90) 90 cfg.SERVOMIN cfg.SERVOMAX)] := rfl

lemma port_step_fst (cfg : Config) (n : Nat) (angle : ℚ) (s : ServoState) :
    (port_step cfg n angle s).1 =
      rate_limit cfg.MAX_ANGLE_DELTA (s.last_port_angle.getD n 0)
        (angle + cfg.NEUTRALS_PORT.getD n 0) := rfl

lemma star_step_port (cfg : Config) (n : Nat) (angle : ℚ) (s : ServoState) :
    (starboard_step cfg n angle s).2.last_port_angle = s.last_port_angle := rfl

lemma star_step_star (cfg : Config) (n : Nat) (angle : ℚ) (s : ServoState) :
    (starboard_step cfg n angle s).2.last_starboard_angle =
      s.last_starboard_angle.set n
        (rate_limit cfg.MAX_ANGLE_DELTA (s.last_starboard_angle.getD n 0)
          (angle + cfg.NEUTRALS_STARBOARD.getD n 0)) := rfl

lemma star_step_writes (cfg : Config) (n : Nat) (angle : ℚ) (s : ServoState) :
    (starboard_step cfg n angle s).2.writes =
      s.writes ++ [(n + NUM_SERVOS,
        map (-(rate_limit cfg.MAX_ANGLE_DELTA (s.last_starboard_angle.getD n 0)
          (angle + cfg.NEUTRALS_STARBOARD.getD n 0))) (-90) 90 cfg.SERVOMIN cfg.SERVOMAX)] := rfl

/-! Slew-rate fold lemmas for C2. -/

lemma getD_set_rate_limit (l : List ℚ) (n : Nat) (x delta : ℚ) (hd : 0 ≤ delta) (i : Nat) :
    |(l.set n (rate_limit delta (l.getD n 0) x)).getD i 0 - l.getD i 0| ≤ delta := by
  rcases eq_or_ne n i with rfl | h
  · by_cases hn : n < l.length
    · rw [getD_set_self _ _ _ hn]
      exact rate_limit_abs_le delta (l.getD n 0) x hd
    · rw [List.set_eq_of_length_le (by omega)]
      simpa using hd
  · rw [getD_set_ne _ _ _ _ h]
    simpa using hd

lemma servo_iter_slew (cfg : Config) (wf : Waveforms) (a wl tm : ℚ) (wt : Int)
    (side : Side) (st : ℚ × ServoState) (n : Nat)
    (hd : 0 ≤ cfg.MAX_ANGLE_DELTA) (i : Nat) :
    |(servo_iter cfg wf a wl tm wt side st n).2.last_port_angle.getD i 0 -
       st.2.last_port_angle.getD i 0| ≤ cfg.MAX_ANGLE_DELTA ∧
    |(servo_iter cfg wf a wl tm wt side st n).2.last_starboard_angle.getD i 0 -
       st.2.last_starboard_angle.getD i 0| ≤ cfg.MAX_ANGLE_DELTA := by
  cases side with
  | P =>
    rw [servo_iter_P_eq]
    refine ⟨?_, ?_⟩
    · rw [port_step_port]
      exact getD_set_rate_limit _ _ _ _ hd i
    · rw [port_step_star]
      simpa using hd
  | S =>
    rw [servo_iter_S_eq]
    refine ⟨?_, ?_⟩
    · rw [star_step_port]
      simpa using hd
    · rw [star_step_star]
      exact getD_set_rate_limit _ _ _ _ hd i
  | B =>
    rw [servo_iter_B_eq]
    refine ⟨?_, ?_⟩
    · rw [star_step_port, port_step_port]
      exact getD_set_rate_limit _ _ _ _ hd i
    · rw [star_step_star, port_step_star]
      exact getD_set_rate_limit _ _ _ _ hd i

lemma servo_iter_getD_ne (cfg : Config) (wf : Waveforms) (a wl tm : ℚ) (wt : Int)
    (side : Side) (st : ℚ × ServoState) (n i : Nat) (h : n ≠ i) :
    (servo_iter cfg wf a wl tm wt side st n).2.last_port_angle.getD i 0 =
      st.2.last_port_angle.getD i 0 ∧
    (servo_iter cfg wf a wl tm wt side st n).2.last_starboard_angle.getD i 0 =
      st.2.last_starboard_angle.getD i 0 := by
  cases side with
  | P =>
    rw [servo_iter_P_eq]
    exact ⟨by rw [port_step_port, getD_set_ne _ _ _ _ h], by rw [port_step_star]⟩
  | S =>
    rw [servo_iter_S_eq]
    exact ⟨by rw [star_step_port], by rw [star_step_star, getD_set_ne _ _ _ _ h]⟩
  | B =>
    rw [servo_iter_B_eq]
    exact ⟨by rw [star_step_port, port_step_port, getD_set_ne _ _ _ _ h],
           by rw [star_step_star, port_step_star, getD_set_ne _ _ _ _ h]⟩

lemma foldl_servo_iter_getD_ne (cfg : Config) (wf : Waveforms) (a wl tm : ℚ) (wt : Int)
    (side : Side) (i : Nat) :
    ∀ (l : List Nat), i ∉ l → ∀ (st : ℚ × ServoState),
      (l.foldl (servo_iter cfg wf a wl tm wt side) st).2.last_port_angle.getD i 0 =
        st.2.last_port_angle.getD i 0 ∧
      (l.foldl (servo_iter cfg wf a wl tm wt side) st).2.last_starboard_angle.getD i 0 =
        st.2.last_starboard_angle.getD i 0 := by
  intro l
  induction l with
  | nil => exact fun _ st => ⟨rfl, rfl⟩
  | cons n t ih =>
    intro h st
    have hn : n ≠ i := fun hni => h (hni ▸ List.mem_cons_self n t)
    have ht : i ∉ t := fun hm => h (List.mem_cons_of_mem n hm)
    rw [List.foldl_cons]
    obtain ⟨h1, h2⟩ := ih ht (servo_iter cfg wf a wl tm wt side st n)
    obtain ⟨h3, h4⟩ := servo_iter_getD_ne cfg wf a wl tm wt side st n i hn
    exact ⟨h1.trans h3, h2.trans h4⟩

lemma foldl_servo_iter_slew (cfg : Config) (wf : Waveforms) (a wl tm : ℚ) (wt : Int)
    (side : Side) (hd : 0 ≤ cfg.MAX_ANGLE_DELTA) :
    ∀ (l : List Nat), l.Nodup → ∀ (st : ℚ × ServoState) (i : Nat),
      |(l.foldl (servo_iter cfg wf a wl tm wt side) st).2.last_port_angle.getD i 0 -
         st.2.last_port_angle.getD i 0| ≤ cfg.MAX_ANGLE_DELTA ∧
      |(l.foldl (servo_iter cfg wf a wl tm wt side) st).2.last_starboard_angle.getD i 0 -
         st.2.last_starboard_angle.getD i 0| ≤ cfg.MAX_ANGLE_DELTA := by
  intro l
  induction l with
  | nil => intro _ st i; constructor <;> simpa using hd
  | cons n t ih =>
    intro hnd st i
    rw [List.nodup_cons] at hnd
    rw [List.foldl_cons]
    rcases eq_or_ne n i with rfl | h
    · obtain ⟨h1, h2⟩ := foldl_servo_iter_getD_ne cfg wf a wl tm wt side n t hnd.1
        (servo_iter cfg wf a wl tm wt side st n)
      rw [h1, h2]
      exact servo_iter_slew cfg wf a wl tm wt side st n hd n
    · obtain ⟨h3, h4⟩ := servo_iter_getD_ne cfg wf a wl tm wt side st n i h
      obtain ⟨h1, h2⟩ := ih hnd.2 (servo_iter cfg wf a wl tm wt side st n) i
      rw [h3] at h1
      rw [h4] at h2
      exact ⟨h1, h2⟩

/-- C2: slew-rate invariant of `set_positions` — for every actuator index
and every side actually written (port when side ∈ {Both, Port}, starboard
when side ∈ {Both, Starboard}), the newly stored history angle differs
from that actuator/side's history angle before the call by at most
`MAX_ANGLE_DELTA`. -/
theorem set_positions_slew_invariant (cfg : Config) (wf : Waveforms)
    (angle0 amplitude wavelength tm : ℚ) (wavetype : Int) (side : Side)
    (s : ServoState) (hd : 0 ≤ cfg.MAX_ANGLE_DELTA) (i : Nat) :
    ((side = Side.B ∨ side = Side.P) →
      |(set_positions cfg wf angle0 amplitude wavelength tm wavetype side s).last_port_angle.getD i 0 -
         s.last_port_angle.getD i 0| ≤ cfg.MAX_ANGLE_DELTA) ∧
    ((side = Side.B ∨ side = Side.S) →
      |(set_positions cfg wf angle0 amplitude wavelength tm wavetype side s).last_starboard_angle.getD i 0 -
         s.last_starboard_angle.getD i 0| ≤ cfg.MAX_ANGLE_DELTA) := by
  obtain ⟨h1, h2⟩ := foldl_servo_iter_slew cfg wf amplitude wavelength tm wavetype side hd
    (List.range NUM_SERVOS) (List.nodup_range NUM_SERVOS) (angle0, s) i
  exact ⟨fun _ => h1, fun _ => h2⟩

/-- Witness for C2 at the sample configuration, wavetype Sine, side Both,
actuator index 0. -/
theorem set_positions_slew_invariant_witness :
    ((Side.B = Side.B ∨ Side.B = Side.P) →
      |(set_positions cfg0 wf0 0 1 480 0 SINWAVE Side.B s0).last_port_angle.getD 0 0 -
         s0.last_port_angle.getD 0 0| ≤ cfg0.MAX_ANGLE_DELTA) ∧
    ((Side.B = Side.B ∨ Side.B = Side.S) →
      |(set_positions cfg0 wf0 0 1 480 0 SINWAVE Side.B s0).last_starboard_angle.getD 0 0 -
         s0.last_starboard_angle.getD 0 0| ≤ cfg0.MAX_ANGLE_DELTA) :=
  set_positions_slew_invariant cfg0 wf0 0 1 480 0 SINWAVE Side.B s0
    (by norm_num [cfg0]) 0

/-! Side-isolation fold lemmas for C10. -/

lemma foldl_P_isolation (cfg : Config) (wf : Waveforms) (a wl tm : ℚ) (wt : Int) :
    ∀ (l : List Nat) (st : ℚ × ServoState), (∀ n ∈ l, n < NUM_SERVOS) →
      (l.foldl (servo_iter cfg wf a wl tm wt Side.P) st).2.last_starboard_angle =
        st.2.last_starboard_angle ∧
      ∃ new, (l.foldl (servo_iter cfg wf a wl tm wt Side.P) st).2.writes =
          st.2.writes ++ new ∧
        new.all (fun p => decide (p.1 < NUM_SERVOS)) = true := by
  intro l
  induction l with
  | nil => exact fun st _ => ⟨rfl, [], by simp, rfl⟩
  | cons n t ih =>
    intro st h
    rw [List.foldl_cons, servo_iter_P_eq]
    obtain ⟨h1, new, h2, h3⟩ := ih (port_step cfg n (dispatch_angle wf a wl tm wt n st.1) st.2)
      (fun m hm => h m (List.mem_cons_of_mem n hm))
    refine ⟨h1.trans (port_step_star _ _ _ _), ?_, ?_, ?_⟩
    · exact (n, map (rate_limit cfg.MAX_ANGLE_DELTA (st.2.last_port_angle.getD n 0)
        (dispatch_angle wf a wl tm wt n st.1 + cfg.NEUTRALS_PORT.getD n 0))
          (-90) 90 cfg.SERVOMIN cfg.SERVOMAX) :: new
    · rw [h2, port_step_writes, List.append_assoc, List.singleton_append]
    · rw [List.all_cons, h3, Bool.and_true]
      exact decide_eq_true (h n (List.mem_cons_self n t))

lemma foldl_S_isolation (cfg : Config) (wf : Waveforms) (a wl tm : ℚ) (wt : Int) :
    ∀ (l : List Nat) (st : ℚ × ServoState),
      (l.foldl (servo_iter cfg wf a wl tm wt Side.S) st).2.last_port_angle =
        st.2.last_port_angle ∧
      ∃ new, (l.foldl (servo_iter cfg wf a wl tm wt Side.S) st).2.writes =
          st.2.writes ++ new ∧
        new.all (fun p => decide (NUM_SERVOS ≤ p.1)) = true := by
  intro l
  induction l with
  | nil => exact fun st => ⟨rfl, [], by simp, rfl⟩
  | cons n t ih =>
    intro st
    rw [List.foldl_cons, servo_iter_S_eq]
    obtain ⟨h1, new, h2, h3⟩ := ih (starboard_step cfg n (dispatch_angle wf a wl tm wt n st.1) st.2)
    refine ⟨h1.trans (star_step_port _ _ _ _), ?_, ?_, ?_⟩
    · exact (n + NUM_SERVOS,
        map (-(rate_limit cfg.MAX_ANGLE_DELTA (st.2.last_starboard_angle.getD n 0)
          (dispatch_angle wf a wl tm wt n st.1 + cfg.NEUTRALS_STARBOARD.getD n 0)))
          (-90) 90 cfg.SERVOMIN cfg.SERVOMAX) :: new
    · rw [h2, star_step_writes, List.append_assoc, List.singleton_append]
    · rw [List.all_cons, h3, Bool.and_true]
      exact decide_eq_true (Nat.le_add_left NUM_SERVOS n)

/-- C10: side isolation of `set_positions` — a call with side Port leaves
the starboard history untouched and appends only writes to port channels
(index < NUM_SERVOS); a call with side Starboard leaves the port history
untouched and appends only writes to starboard channels
(index ≥ NUM_SERVOS). -/
theorem set_positions_side_isolation (cfg : Config) (wf : Waveforms)
    (angle0 amplitude wavelength tm : ℚ) (wavetype : Int) (s : ServoState) :
    ((set_positions cfg wf angle0 amplitude wavelength tm wavetype Side.P s).last_starboard_angle =
        s.last_starboard_angle ∧
      ∃ new, (set_positions cfg wf angle0 amplitude wavelength tm wavetype Side.P s).writes =
          s.writes ++ new ∧
        new.all (fun p => decide (p.1 < NUM_SERVOS)) = true) ∧
    ((set_positions cfg wf angle0 amplitude wavelength tm wavetype Side.S s).last_port_angle =
        s.last_port_angle ∧
      ∃ new, (set_positions cfg wf angle0 amplitude wavelength tm wavetype Side.S s).writes =
          s.writes ++ new ∧
        new.all (fun p => decide (NUM_SERVOS ≤ p.1)) = true) :=
  ⟨foldl_P_isolation cfg wf amplitude wavelength tm wavetype (List.range NUM_SERVOS)
      (angle0, s) (fun n hn => List.mem_range.mp hn),
   foldl_S_isolation cfg wf amplitude wavelength tm wavetype (List.range NUM_SERVOS)
      (angle0, s)⟩

/-! Unknown-wavetype lemmas for C6. -/

lemma dispatch_angle_unknown (wf : Waveforms) (a wl tm : ℚ) (w : Int) (n : Nat) (angle : ℚ)
    (h1 : w ≠ SINWAVE) (h2 : w ≠ FLATWAVE) (h3 : w ≠ STANDINGWAVE) (h4 : w ≠ SINANDFLAT) :
    dispatch_angle wf a wl tm w n angle = angle := by
  unfold dispatch_angle
  rw [if_neg h1, if_neg h2, if_neg h3, if_neg h4]

/-- C6 counterexample: at the sample configuration, a `set_positions` call
with the unrecognized wavetype 99 and side Port changes the history entry
of actuator 0 (from 0 to 5), so the call is not a no-op. -/
theorem unknown_wavetype_not_noop_cex :
    (set_positions cfg0 wf0 0 1 480 0 99 Side.P s0).last_port_angle.getD 0 0 ≠
      s0.last_port_angle.getD 0 0 := by
  have hr : List.range NUM_SERVOS = 0 :: [1, 2, 3, 4] := rfl
  have key : (set_positions cfg0 wf0 0 1 480 0 99 Side.P s0).last_port_angle.getD 0 0 =
      (servo_iter cfg0 wf0 1 480 0 99 Side.P ((0 : ℚ), s0) 0).2.last_port_angle.getD 0 0 := by
    unfold set_positions
    rw [hr, List.foldl_cons]
    exact (foldl_servo_iter_getD_ne cfg0 wf0 1 480 0 99 Side.P 0 [1, 2, 3, 4] (by decide) _).1
  rw [key, servo_iter_P_eq, port_step_port,
      getD_set_self _ _ _ (by norm_num [s0]),
      dispatch_angle_unknown _ _ _ _ _ _ _ (by decide) (by decide) (by decide) (by decide)]
  norm_num [rate_limit, cfg0, s0]

/-- C6 amended: with a wavetype outside {Sine, Flat, Standing, SineAndFlat}
the waveform dispatch leaves the angle variable unchanged and the waveform
generator is never consulted — the result of `set_positions` does not
depend on the waveform functions, amplitude, wavelength or time, and is
the same for every unrecognized wavetype; no error is signalled (the
function is total).  The call is however not a no-op: the per-side
processing still runs on the carried-over angle (see the
counterexample). -/
theorem unknown_wavetype_dispatch_noop (cfg : Config) (wf wf' : Waveforms)
    (angle0 a a' wl wl' tm tm' : ℚ) (w w' : Int) (side : Side) (s : ServoState)
    (h1 : w ≠ SINWAVE) (h2 : w ≠ FLATWAVE) (h3 : w ≠ STANDINGWAVE) (h4 : w ≠ SINANDFLAT)
    (h1' : w' ≠ SINWAVE) (h2' : w' ≠ FLATWAVE) (h3' : w' ≠ STANDINGWAVE) (h4' : w' ≠ SINANDFLAT) :
    set_positions cfg wf angle0 a wl tm w side s =
      set_positions cfg wf' angle0 a' wl' tm' w' side s := by
  unfold set_positions
  have hiter : servo_iter cfg wf a wl tm w side = servo_iter cfg wf' a' wl' tm' w' side := by
    funext st n
    unfold servo_iter
    rw [dispatch_angle_unknown wf a wl tm w n st.1 h1 h2 h3 h4,
        dispatch_angle_unknown wf' a' wl' tm' w' n st.1 h1' h2' h3' h4']
  rw [hiter]

/-- Witness for the amended C6 theorem at unrecognized wavetypes 99 and
-7, with different waveform functions, amplitudes, wavelengths and
times. -/
theorem unknown_wavetype_dispatch_noop_witness :
    set_positions cfg0 wf0 0 1 480 0 99 Side.B s0 =
      set_positions cfg0 ⟨fun a _ _ _ => a, fun a _ _ => a, fun a _ _ _ => a, fun a _ _ _ => a⟩
        0 2 240 7 (-7) Side.B s0 :=
  unknown_wavetype_dispatch_noop cfg0 wf0 _ 0 1 2 480 240 0 7 99 (-7) Side.B s0
    (by decide) (by decide) (by decide) (by decide)
    (by decide) (by decide) (by decide) (by decide)

/-! Characterization of starboard processing for C7. -/

/-- The raw waveform angle produced by the dispatch for a recognized
wavetype (the carried-over angle argument is irrelevant there). -/
def raw_angle (wf : Waveforms) (amplitude wavelength time_milli : ℚ) (wavetype : Int)
    (n : Nat) : ℚ :=
  dispatch_angle wf amplitude wavelength time_milli wavetype n 0

lemma dispatch_angle_recognized (wf : Waveforms) (a wl tm : ℚ) (w : Int) (n : Nat) (x : ℚ)
    (hw : w = SINWAVE ∨ w = FLATWAVE ∨ w = STANDINGWAVE ∨ w = SINANDFLAT) :
    dispatch_angle wf a wl tm w n x = raw_angle wf a wl tm w n := by
  rcases hw with h | h | h | h <;> subst h <;> rfl

lemma foldl_S_char (cfg : Config) (wf : Waveforms) (a wl tm : ℚ) (w : Int)
    (hw : w = SINWAVE ∨ w = FLATWAVE ∨ w = STANDINGWAVE ∨ w = SINANDFLAT) :
    ∀ (l : List Nat), l.Nodup → ∀ (st : ℚ × ServoState),
      (∀ n ∈ l, n < st.2.last_starboard_angle.length) →
      (∀ i, (l.foldl (servo_iter cfg wf a wl tm w Side.S) st).2.last_starboard_angle.getD i 0 =
          if i ∈ l then
            rate_limit cfg.MAX_ANGLE_DELTA (st.2.last_starboard_angle.getD i 0)
              (raw_angle wf a wl tm w i + cfg.NEUTRALS_STARBOARD.getD i 0)
          else st.2.last_starboard_angle.getD i 0) ∧
      (l.foldl (servo_iter cfg wf a wl tm w Side.S) st).2.writes =
          st.2.writes ++ l.map (fun n =>
            (n + NUM_SERVOS,
             map (-(rate_limit cfg.MAX_ANGLE_DELTA (st.2.last_starboard_angle.getD n 0)
               (raw_angle wf a wl tm w n + cfg.NEUTRALS_STARBOARD.getD n 0)))
               (-90) 90 cfg.SERVOMIN cfg.SERVOMAX)) := by
  intro l
  induction l with
  | nil => exact fun _ st _ => ⟨fun i => by simp, by simp⟩
  | cons n t ih =>
    intro hnd st hlen
    rw [List.nodup_cons] at hnd
    rw [List.foldl_cons, servo_iter_S_eq, dispatch_angle_recognized wf a wl tm w n st.1 hw]
    have hlen' : ∀ m ∈ t, m <
        (starboard_step cfg n (raw_angle wf a wl tm w n) st.2).2.last_starboard_angle.length := by
      intro m hm
      rw [star_step_star, List.length_set]
      exact hlen m (List.mem_cons_of_mem n hm)
    obtain ⟨ihg, ihw⟩ := ih hnd.2 (starboard_step cfg n (raw_angle wf a wl tm w n) st.2) hlen'
    constructor
    · intro i
      rw [ihg i]
      rcases eq_or_ne i n with rfl | hne
      · rw [if_neg hnd.1, star_step_star,
            getD_set_self _ _ _ (hlen i (List.mem_cons_self i t)),
            if_pos (List.mem_cons_self i t)]
      · have hni : n ≠ i := hne.symm
        simp only [star_step_star, getD_set_ne _ _ _ _ hni]
        simp [List.mem_cons, hne]
    · rw [ihw, star_step_writes, List.append_assoc, List.singleton_append, List.map_cons]
      have hmap : t.map (fun m =>
          ((m + NUM_SERVOS : Nat),
           map (-(rate_limit cfg.MAX_ANGLE_DELTA
             ((starboard_step cfg n (raw_angle wf a wl tm w n) st.2).2.last_starboard_angle.getD m 0)
             (raw_angle wf a wl tm w m + cfg.NEUTRALS_STARBOARD.getD m 0)))
             (-90) 90 cfg.SERVOMIN cfg.SERVOMAX)) = t.map (fun m =>
          ((m + NUM_SERVOS : Nat),
           map (-(rate_limit cfg.MAX_ANGLE_DELTA (st.2.last_starboard_angle.getD m 0)
             (raw_angle wf a wl tm w m + cfg.NEUTRALS_STARBOARD.getD m 0)))
             (-90) 90 cfg.SERVOMIN cfg.SERVOMAX)) := by
        refine List.map_congr_left (fun m hm => ?_)
        have hnm : n ≠ m := fun h => hnd.1 (h ▸ hm)
        rw [star_step_star, getD_set_ne _ _ _ _ hnm]
      rw [hmap]

lemma foldl_B_char (cfg : Config) (wf : Waveforms) (a wl tm : ℚ) (w : Int)
    (hw : w = SINWAVE ∨ w = FLATWAVE ∨ w = STANDINGWAVE ∨ w = SINANDFLAT) :
    ∀ (l : List Nat), l.Nodup → ∀ (st : ℚ × ServoState),
      (∀ n ∈ l, n < st.2.last_port_angle.length ∧ n < st.2.last_starboard_angle.length) →
      ∀ i,
        ((l.foldl (servo_iter cfg wf a wl tm w Side.B) st).2.last_port_angle.getD i 0 =
          if i ∈ l then
            rate_limit cfg.MAX_ANGLE_DELTA (st.2.last_port_angle.getD i 0)
              (raw_angle wf a wl tm w i + cfg.NEUTRALS_PORT.getD i 0)
          else st.2.last_port_angle.getD i 0) ∧
        ((l.foldl (servo_iter cfg wf a wl tm w Side.B) st).2.last_starboard_angle.getD i 0 =
          if i ∈ l then
            rate_limit cfg.MAX_ANGLE_DELTA (st.2.last_starboard_angle.getD i 0)
              (rate_limit cfg.MAX_ANGLE_DELTA (st.2.last_port_angle.getD i 0)
                 (raw_angle wf a wl tm w i + cfg.NEUTRALS_PORT.getD i 0)
               + cfg.NEUTRALS_STARBOARD.getD i 0)
          else st.2.last_starboard_angle.getD i 0) := by
  intro l
  induction l with
  | nil => exact fun _ st _ i => ⟨by simp, by simp⟩
  | cons n t ih =>
    intro hnd st hlen
    rw [List.nodup_cons] at hnd
    intro i
    rw [List.foldl_cons, servo_iter_B_eq, dispatch_angle_recognized wf a wl tm w n st.1 hw]
    have hport' : (starboard_step cfg n
        (port_step cfg n (raw_angle wf a wl tm w n) st.2).1
        (port_step cfg n (raw_angle wf a wl tm w n) st.2).2).2.last_port_angle =
          st.2.last_port_angle.set n
            (rate_limit cfg.MAX_ANGLE_DELTA (st.2.last_port_angle.getD n 0)
              (raw_angle wf a wl tm w n + cfg.NEUTRALS_PORT.getD n 0)) := by
      rw [star_step_port, port_step_port]
    have hstar' : (starboard_step cfg n
        (port_step cfg n (raw_angle wf a wl tm w n) st.2).1
        (port_step cfg n (raw_angle wf a wl tm w n) st.2).2).2.last_starboard_angle =
          st.2.last_starboard_angle.set n
            (rate_limit cfg.MAX_ANGLE_DELTA (st.2.last_starboard_angle.getD n 0)
              (rate_limit cfg.MAX_ANGLE_DELTA (st.2.last_port_angle.getD n 0)
                 (raw_angle wf a wl tm w n + cfg.NEUTRALS_PORT.getD n 0)
               + cfg.NEUTRALS_STARBOARD.getD n 0)) := by
      rw [star_step_star, port_step_star, port_step_fst]
    have hlen' : ∀ m ∈ t, m <
        (starboard_step cfg n (port_step cfg n (raw_angle wf a wl tm w n) st.2).1
          (port_step cfg n (raw_angle wf a wl tm w n) st.2).2).2.last_port_angle.length ∧ m <
        (starboard_step cfg n (port_step cfg n (raw_angle wf a wl tm w n) st.2).1
          (port_step cfg n (raw_angle wf a wl tm w n) st.2).2).2.last_starboard_angle.length := by
      intro m hm
      rw [hport', hstar', List.length_set, List.length_set]
      exact hlen m (List.mem_cons_of_mem n hm)
    obtain ⟨ihp, ihs⟩ := ih hnd.2 _ hlen' i
    rw [ihp, ihs, hport', hstar']
    rcases eq_or_ne i n with rfl | hne
    · rw [if_neg hnd.1, if_neg hnd.1,
          getD_set_self _ _ _ (hlen i (List.mem_cons_self i t)).1,
          getD_set_self _ _ _ (hlen i (List.mem_cons_self i t)).2,
          if_pos (List.mem_cons_self i t), if_pos (List.mem_cons_self i t)]
      exact ⟨rfl, rfl⟩
    · have hni : n ≠ i := hne.symm
      simp only [getD_set_ne _ _ _ _ hni]
      simp [List.mem_cons, hne]

/-- C7 counterexample: with side Both at a configuration whose slew limit
is inactive, the starboard command of actuator 0 is not the raw waveform
angle plus the starboard neutral offset (clamped): the stored starboard
history angle is 20, while that formula gives 10 — the starboard branch
reuses the port-processed angle. -/
theorem starboard_raw_angle_cex :
    (set_positions cfg1 wf0 0 1 480 0 FLATWAVE Side.B s0).last_starboard_angle.getD 0 0 ≠
      rate_limit cfg1.MAX_ANGLE_DELTA (s0.last_starboard_angle.getD 0 0)
        (wf0.calc_angle_flatwave 1 480 0 + cfg1.NEUTRALS_STARBOARD.getD 0 0) := by
  have hr : List.range NUM_SERVOS = 0 :: [1, 2, 3, 4] := rfl
  have key : (set_positions cfg1 wf0 0 1 480 0 FLATWAVE Side.B s0).last_starboard_angle.getD 0 0 =
      (servo_iter cfg1 wf0 1 480 0 FLATWAVE Side.B ((0 : ℚ), s0) 0).2.last_starboard_angle.getD 0 0 := by
    unfold set_positions
    rw [hr, List.foldl_cons]
    exact (foldl_servo_iter_getD_ne cfg1 wf0 1 480 0 FLATWAVE Side.B 0 [1, 2, 3, 4] (by decide) _).2
  rw [key, servo_iter_B_eq, star_step_star, port_step_star,
      getD_set_self _ _ _ (by norm_num [s0]), port_step_fst]
  norm_num [rate_limit, dispatch_angle, SINWAVE, FLATWAVE, cfg1, wf0, s0]

/-- C7 amended: for side Starboard, each actuator's starboard command is
the raw waveform angle plus the starboard neutral offset, clamped against
the starboard history ± MAX_ANGLE_DELTA, with the un-inverted command
stored in the starboard history and the sign-inverted command mapped to a
pulse written to channel (index + NUM_SERVOS); for side Both, the angle
entering starboard processing is not the raw waveform angle but the
port-processed (port-offset and port-clamped) angle, to which the
starboard neutral offset is added before the starboard clamp. -/
theorem starboard_processing_amended (cfg : Config) (wf : Waveforms)
    (angle0 amplitude wavelength tm : ℚ) (w : Int) (s : ServoState) (i : Nat)
    (hw : w = SINWAVE ∨ w = FLATWAVE ∨ w = STANDINGWAVE ∨ w = SINANDFLAT)
    (hi : i < NUM_SERVOS)
    (hlenP : s.last_port_angle.length = NUM_SERVOS)
    (hlenS : s.last_starboard_angle.length = NUM_SERVOS) :
    ((set_positions cfg wf angle0 amplitude wavelength tm w Side.S s).last_starboard_angle.getD i 0 =
        rate_limit cfg.MAX_ANGLE_DELTA (s.last_starboard_angle.getD i 0)
          (raw_angle wf amplitude wavelength tm w i + cfg.NEUTRALS_STARBOARD.getD i 0)) ∧
    ((set_positions cfg wf angle0 amplitude wavelength tm w Side.S s).writes =
        s.writes ++ (List.range NUM_SERVOS).map (fun n =>
          (n + NUM_SERVOS,
           map (-(rate_limit cfg.MAX_ANGLE_DELTA (s.last_starboard_angle.getD n 0)
             (raw_angle wf amplitude wavelength tm w n + cfg.NEUTRALS_STARBOARD.getD n 0)))
             (-90) 90 cfg.SERVOMIN cfg.SERVOMAX))) ∧
    ((set_positions cfg wf angle0 amplitude wavelength tm w Side.B s).last_starboard_angle.getD i 0 =
        rate_limit cfg.MAX_ANGLE_DELTA (s.last_starboard_angle.getD i 0)
          (rate_limit cfg.MAX_ANGLE_DELTA (s.last_port_angle.getD i 0)
             (raw_angle wf amplitude wavelength tm w i + cfg.NEUTRALS_PORT.getD i 0)
           + cfg.NEUTRALS_STARBOARD.getD i 0)) := by
  have hmem : i ∈ List.range NUM_SERVOS := List.mem_range.mpr hi
  obtain ⟨hg, hwr⟩ := foldl_S_char cfg wf amplitude wavelength tm w hw
    (List.range NUM_SERVOS) (List.nodup_range NUM_SERVOS) (angle0, s)
    (fun n hn => by rw [hlenS]; exact List.mem_range.mp hn)
  obtain ⟨hp, hs2⟩ := foldl_B_char cfg wf amplitude wavelength tm w hw
    (List.range NUM_SERVOS) (List.nodup_range NUM_SERVOS) (angle0, s)
    (fun n hn => by rw [hlenP, hlenS]; exact ⟨List.mem_range.mp hn, List.mem_range.mp hn⟩) i
  refine ⟨?_, hwr, ?_⟩
  · show (List.foldl (servo_iter cfg wf amplitude wavelength tm w Side.S)
        (angle0, s) (List.range NUM_SERVOS)).2.last_starboard_angle.getD i 0 = _
    rw [hg i, if_pos hmem]
  · show (List.foldl (servo_iter cfg wf amplitude wavelength tm w Side.B)
        (angle0, s) (List.range NUM_SERVOS)).2.last_starboard_angle.getD i 0 = _
    rw [hs2, if_pos hmem]

/-- Witness for the amended C7 theorem at the sample configuration,
wavetype Sine, actuator index 0. -/
theorem starboard_processing_amended_witness :
    ((set_positions cfg0 wf0 0 1 480 0 SINWAVE Side.S s0).last_starboard_angle.getD 0 0 =
        rate_limit cfg0.MAX_ANGLE_DELTA (s0.last_starboard_angle.getD 0 0)
          (raw_angle wf0 1 480 0 SINWAVE 0 + cfg0.NEUTRALS_STARBOARD.getD 0 0)) ∧
    ((set_positions cfg0 wf0 0 1 480 0 SINWAVE Side.S s0).writes =
        s0.writes ++ (List.range NUM_SERVOS).map (fun n =>
          (n + NUM_SERVOS,
           map (-(rate_limit cfg0.MAX_ANGLE_DELTA (s0.last_starboard_angle.getD n 0)
             (raw_angle wf0 1 480 0 SINWAVE n + cfg0.NEUTRALS_STARBOARD.getD n 0)))
             (-90) 90 cfg0.SERVOMIN cfg0.SERVOMAX))) ∧
    ((set_positions cfg0 wf0 0 1 480 0 SINWAVE Side.B s0).last_starboard_angle.getD 0 0 =
        rate_limit cfg0.MAX_ANGLE_DELTA (s0.last_starboard_angle.getD 0 0)
          (rate_limit cfg0.MAX_ANGLE_DELTA (s0.last_port_angle.getD 0 0)
             (raw_angle wf0 1 480 0 SINWAVE 0 + cfg0.NEUTRALS_PORT.getD 0 0)
           + cfg0.NEUTRALS_STARBOARD.getD 0 0)) :=
  starboard_processing_amended cfg0 wf0 0 1 480 0 SINWAVE s0 0
    (Or.inl rfl) (by norm_num [NUM_SERVOS]) rfl rfl

end servo
